import Mathlib

/-!
Shallow embedding of `src/app.py` (a small stock-quote / news dashboard).

Python floats become `ℚ`; `datetime` instants become `Int` Unix seconds;
falsy/`None` patterns become `Option`; functions that may `raise` return
`Except`.  Network collaborators (yfinance history / fast-info, the primary
news feed, the Google-News RSS feed, the Google translator) are modelled as
explicit environment records: a fetch function reads only those fields, so
"no network call is made" is expressed as independence from the environment.
-/

set_option autoImplicit false

namespace App

/-- ASCII whitespace as recognised by Python's `str.strip()` and the regex
class used in the code (Unicode space classes beyond ASCII are outside the
inputs this development evaluates). -/
def isPySpace (c : Char) : Bool :=
  c = ' ' ∨ c = Char.ofNat 9 ∨ c = Char.ofNat 10 ∨ c = Char.ofNat 13 ∨
    c = Char.ofNat 11 ∨ c = Char.ofNat 12

/-- Python `str.strip()` on a list of characters: drop leading and trailing
whitespace. -/
def pyStripList (l : List Char) : List Char :=
  ((l.dropWhile isPySpace).reverse.dropWhile isPySpace).reverse

/-- Python `str.strip()`. -/
def pyStrip (s : String) : String :=
  String.mk (pyStripList s.data)

/-- Python `str.upper()` (ASCII case mapping, which covers ticker symbols). -/
def pyUpper (s : String) : String :=
  String.mk (s.data.map Char.toUpper)

/-- Python `a or b` on strings: `b` when `a` is empty, else `a`. -/
def pyOr (a b : String) : String :=
  if a = "" then b else a

/-- One step list of `html.unescape`, fuel-indexed so that recursion is
structural.  The entities exercised by this program's data (`&amp;` `&lt;`
`&gt;` `&quot;` `&#39;`) are decoded; other text passes through unchanged. -/
def unescapeF : Nat → List Char → List Char
  | 0, l => l
  | _, [] => []
  | fuel + 1, c :: rest =>
    if c = '&' then
      match rest with
      | 'a' :: 'm' :: 'p' :: ';' :: rem => '&' :: unescapeF fuel rem
      | 'l' :: 't' :: ';' :: rem => '<' :: unescapeF fuel rem
      | 'g' :: 't' :: ';' :: rem => '>' :: unescapeF fuel rem
      | 'q' :: 'u' :: 'o' :: 't' :: ';' :: rem => Char.ofNat 34 :: unescapeF fuel rem
      | '#' :: '3' :: '9' :: ';' :: rem => Char.ofNat 39 :: unescapeF fuel rem
      | _ => c :: unescapeF fuel rest
    else c :: unescapeF fuel rest

/-- `html.unescape` as used on raw titles and summaries. -/
def html_unescape (s : String) : String :=
  String.mk (unescapeF s.data.length s.data)

/-- Scan forward to the first closing angle bracket, returning the remainder
after it (the tail of a regex match of the class-plus-close part). -/
def skipToGt : List Char → Option (List Char)
  | [] => none
  | c :: rest => if c = '>' then some rest else skipToGt rest

/-- Given the characters after an opening angle bracket, decide whether the
regex tag pattern (open bracket, one or more non-close characters, close
bracket) matches here; if so return the remainder after the match. -/
def afterTag : List Char → Option (List Char)
  | [] => none
  | c :: rest => if c = '>' then none else skipToGt (c :: rest)

/-- Replacement of every tag-pattern match by a single space, leftmost-match
first, exactly as `re.sub` does; fuel-indexed (each step consumes at least one
character, so fuel equal to the length is always enough). -/
def stripTagsF : Nat → List Char → List Char
  | 0, l => l
  | _, [] => []
  | fuel + 1, c :: rest =>
    if c = '<' then
      match afterTag rest with
      | some rem => ' ' :: stripTagsF fuel rem
      | none => c :: stripTagsF fuel rest
    else c :: stripTagsF fuel rest

/-- Collapse every maximal run of whitespace to a single space, as the
second `re.sub` in the code does; fuel-indexed. -/
def collapseWsF : Nat → List Char → List Char
  | 0, l => l
  | _, [] => []
  | fuel + 1, c :: rest =>
    if isPySpace c then ' ' :: collapseWsF fuel (rest.dropWhile isPySpace)
    else c :: collapseWsF fuel rest

/-- The nested helper of `fetch_news`: unescape entities, replace
every HTML tag by a space, collapse whitespace runs, and trim. -/
def strip_html (raw : String) : String :=
  let text := unescapeF raw.data.length raw.data
  let text := stripTagsF text.length text
  String.mk (pyStripList (collapseWsF text.length text))

/-- A wall-clock instant already converted to America/New_York local time:
the `zoneinfo` conversion is the external boundary; its output invariants are
weekday below seven, hour below twenty-four, minute below sixty.  Weekday
zero is Monday, matching Python `datetime.weekday()`. -/
structure EasternTime where
  weekday : Nat
  hour : Nat
  minute : Nat
deriving DecidableEq, Repr

/-- The market-session check of `app.py`: weekend means closed; on a weekday
the session is open exactly on the half-open window from half past nine to
four o'clock.  Returns the flag and the Chinese session label. -/
def is_us_market_open (est : EasternTime) : Bool × String :=
  if 5 ≤ est.weekday then (false, "休市（周末）")
  else if (9 < est.hour ∨ (est.hour = 9 ∧ 30 ≤ est.minute)) ∧ est.hour < 16 then
    (true, "美股交易时段")
  else (false, "盘后/盘前时段")

/-- The `StockQuote` dataclass.  `as_of` is a Unix timestamp. -/
structure StockQuote where
  symbol : String
  last_price : ℚ
  prev_close : ℚ
  change : ℚ
  change_pct : ℚ
  as_of : Int
  is_market_open : Bool
deriving DecidableEq, Repr

/-- External data consumed by one run of `fetch_stock_quote`: the Close
column of the two-day history (entries may be NaN, hence `Option`; a missing
or empty DataFrame is the empty list), the current price resolved through the
fast-info / basic-info field chain (`none` when every field is absent), the
fetch instant, and its New-York local time. -/
structure QuoteEnv where
  hist2d : List (Option ℚ)
  current_price : Option ℚ
  now : Int
  est_now : EasternTime

/-- `fetch_stock_quote`: normalise and validate the symbol, take the last
two non-null closes of the two-day history as (prev, last) — or only last
when a single close exists — fall back to the live price for last, and fail
unless both last and a non-zero prev were obtained. -/
def fetch_stock_quote (env : QuoteEnv) (symbol : String) : Except String StockQuote :=
  let sym := pyUpper (pyStrip symbol)
  if sym = "" then Except.error "股票代码不能为空"
  else
    let closes := env.hist2d.filterMap id
    let lp : Option ℚ × Option ℚ :=
      match closes.reverse with
      | a :: p :: _ => (some a, some p)
      | [a] => (some a, none)
      | [] => (none, none)
    let last1 : Option ℚ :=
      match lp.1, env.current_price with
      | none, some c => some c
      | l, _ => l
    match last1, lp.2 with
    | some last, some prev =>
      if prev = 0 then Except.error "无法获取该股票的有效价格数据"
      else
        Except.ok
          { symbol := sym
            last_price := last
            prev_close := prev
            change := last - prev
            change_pct := (last - prev) / prev
            as_of := env.now
            is_market_open := (is_us_market_open env.est_now).1 }
    | _, _ => Except.error "无法获取该股票的有效价格数据"

/-- One raw item as delivered by a news provider, after the dictionary
field-default chains of the code (`item.get(...) or ...`) have been applied:
`pubTime` is the published instant in Unix seconds, `none` when the
timestamp conversion raises (the `except: continue` branch); the text fields
already carry their `or`-defaults. -/
structure RawNewsItem where
  pubTime : Option Int
  title : String
  link : String
  publisher : String
  summary : String
deriving DecidableEq, Repr

/-- One entry of the dictionary list built by the two provider helpers:
title, link, publisher, published instant and HTML-stripped summary. -/
structure NewsItem where
  title : String
  link : String
  publisher : String
  time : Int
  summary : String
deriving DecidableEq, Repr

/-- A news entry after the translation pass added the `title_zh` and
`summary_zh` keys used by the rendering code. -/
structure TranslatedNewsItem extends NewsItem where
  title_zh : String
  summary_zh : String
deriving DecidableEq, Repr

/-- The nested `_from_yfinance` helper, applied to the provider's raw item
list: drop items whose timestamp is unparsable or older than the cutoff,
strip HTML from the summary, keep provider order. -/
def from_yfinance (cutoff : Int) (raws : List RawNewsItem) : List NewsItem :=
  raws.filterMap fun r =>
    match r.pubTime with
    | none => none
    | some t =>
      if t < cutoff then none
      else
        some
          { title := r.title
            link := r.link
            publisher := r.publisher
            time := t
            summary := strip_html r.summary }

/-- The nested `_from_google_rss` helper applied to the parsed XML items:
drop items whose publish date fails RFC-822 parsing or is older than the
cutoff, unescape the title, strip HTML from the description. -/
def from_google_rss (cutoff : Int) (raws : List RawNewsItem) : List NewsItem :=
  raws.filterMap fun r =>
    match r.pubTime with
    | none => none
    | some t =>
      if t < cutoff then none
      else
        some
          { title := html_unescape r.title
            link := r.link
            publisher := r.publisher
            time := t
            summary := strip_html r.summary }

/-- Python `items[:limit]` guarded by `len(items) > limit`, with Python's
slice semantics for negative bounds (a negative bound counts from the end,
clamped at zero). -/
def pyTruncate {α : Type} (l : List α) (limit : Int) : List α :=
  if limit < (l.length : Int) then
    if 0 ≤ limit then l.take limit.toNat
    else l.take (l.length - (-limit).toNat)
  else l

/-- A translation backend: `none` models the library being absent or its
constructor raising; `some f` carries the per-call behaviour, where
`Except.error` models `translate` raising. -/
def Translator : Type := Option (String → Except Unit String)

/-- The nested `_translate` helper: strip the text; empty text or a missing
backend yield the text with a failure flag; otherwise call the backend and
fall back to the stripped text when it raises. -/
def translate_text (tr : Translator) (text : String) : String × Bool :=
  let t := pyStrip text
  if t = "" then (t, false)
  else
    match tr with
    | none => (t, false)
    | some f =>
      match f t with
      | Except.ok s => (s, true)
      | Except.error _ => (t, false)

/-- The per-item body of the translation loop of `fetch_news`: translate
title and (when non-empty) summary; when both attempts failed and the item
has any text, append the visible unavailability marker to the title and keep
the original summary; finally apply the Python `or` fallbacks. -/
def translate_item (tr : Translator) (it : NewsItem) : TranslatedNewsItem :=
  let title_en := it.title
  let summary_en := it.summary
  let r1 := translate_text tr title_en
  let r2 := if summary_en = "" then ("", false) else translate_text tr summary_en
  let pair :=
    if r1.2 = false ∧ r2.2 = false ∧ (title_en ≠ "" ∨ summary_en ≠ "") then
      (title_en ++ "（翻译暂不可用）", summary_en)
    else (r1.1, r2.1)
  { toNewsItem := it
    title_zh := pyOr pair.1 title_en
    summary_zh := pyOr pair.2 summary_en }

/-- External data consumed by one run of `fetch_news`: the fetch instant,
the primary provider's raw list (`Except.error` models the whole call
raising), the RSS fallback's raw list (`Except.error` models any request or
parse failure, all of which the code converts to an empty list), and the
translation backend. -/
structure NewsEnv where
  now : Int
  primary : Except Unit (List RawNewsItem)
  rss : Except Unit (List RawNewsItem)
  translator : Translator

/-- The items produced by the primary path of `fetch_news`, with the
exception handler that converts a raising call to the empty list. -/
def primary_items (env : NewsEnv) : List NewsItem :=
  match env.primary with
  | Except.ok raws => from_yfinance (env.now - 604800) raws
  | Except.error _ => []

/-- The items produced by the RSS fallback of `fetch_news`, with its
exception handlers converted to the empty list. -/
def rss_items (env : NewsEnv) : List NewsItem :=
  match env.rss with
  | Except.ok raws => from_google_rss (env.now - 604800) raws
  | Except.error _ => []

/-- `fetch_news`: normalise the symbol (empty means return nothing), fetch
from the primary provider, fall back to the RSS feed when the primary list is
empty, truncate to the limit, then run the translation pass over each item. -/
def fetch_news (env : NewsEnv) (symbol : String) (limit : Int) : List TranslatedNewsItem :=
  let sym := pyUpper (pyStrip symbol)
  if sym = "" then []
  else
    let items := primary_items env
    let items := if items = [] then rss_items env else items
    let items := pyTruncate items limit
    items.map (translate_item env.translator)

/-- Environment for the C4 witness: one primary item published just inside
the window. -/
def newsEnvC4 : NewsEnv :=
  { now := 1000000000
    primary := Except.ok [⟨some 999999999, "T", "l", "P", ""⟩]
    rss := Except.error ()
    translator := none }

/-- Environment for the C5 witness: three in-window primary items with a
requested limit of two. -/
def newsEnvC5 : NewsEnv :=
  { now := 1000000000
    primary := Except.ok
      [⟨some 999999999, "A", "", "P", ""⟩,
       ⟨some 999999998, "B", "", "P", ""⟩,
       ⟨some 999999997, "C", "", "P", ""⟩]
    rss := Except.error ()
    translator := none }

/-- Environment for the C7 witness: a stocked primary provider. -/
def newsEnvC7 : NewsEnv :=
  { now := 1000000000
    primary := Except.ok [⟨some 999999999, "T", "l", "P", ""⟩]
    rss := Except.error ()
    translator := none }

/-- Environment for the C2 counterexample and witness: the translation
backend raises on every call; one fresh primary item titled Hello. -/
def newsEnvC2 : NewsEnv :=
  { now := 1000000000
    primary := Except.ok [⟨some 999999999, "Hello", "l", "P", ""⟩]
    rss := Except.error ()
    translator := some (fun _ => Except.error ()) }

/-- The single item `fetch_news` produces in `newsEnvC2`. -/
def itemC2 : TranslatedNewsItem :=
  ⟨⟨"Hello", "l", "P", 999999999, ""⟩, "Hello（翻译暂不可用）", ""⟩

/-! ### Helper lemmas -/

theorem string_append_ne_empty (a b : String) (hb : b ≠ "") : a ++ b ≠ "" := by
  intro h
  apply hb
  cases a with
  | mk la =>
    cases b with
    | mk lb =>
      have h2 : la ++ lb = [] := by
        have := congrArg String.data h
        simpa using this
      have : lb = [] := (List.append_eq_nil.mp h2).2
      simp [this]

theorem pyUpper_empty_iff (s : String) : pyUpper s = "" ↔ s = "" := by
  cases s with
  | mk l =>
    cases l with
    | nil => simp [pyUpper]
    | cons c cs =>
      constructor
      · intro h
        exact absurd (congrArg String.data h) (by simp [pyUpper])
      · intro h
        exact absurd (congrArg String.data h) (by simp)

theorem pyTruncate_subset {α : Type} (l : List α) (limit : Int) :
    pyTruncate l limit ⊆ l := by
  unfold pyTruncate
  split
  · split
    · exact List.take_subset _ _
    · exact List.take_subset _ _
  · exact fun _ h => h

theorem translate_item_toNewsItem (tr : Translator) (it : NewsItem) :
    (translate_item tr it).toNewsItem = it := rfl

theorem mem_from_yfinance_time (cutoff : Int) (raws : List RawNewsItem) (b : NewsItem)
    (hb : b ∈ from_yfinance cutoff raws) : cutoff ≤ b.time := by
  unfold from_yfinance at hb
  rw [List.mem_filterMap] at hb
  obtain ⟨r, _, hr⟩ := hb
  cases hpt : r.pubTime with
  | none => rw [hpt] at hr; exact absurd hr (by simp)
  | some t =>
    rw [hpt] at hr
    dsimp only at hr
    by_cases htc : t < cutoff
    · rw [if_pos htc] at hr
      exact absurd hr (by simp)
    · rw [if_neg htc] at hr
      have hbt : b.time = t := by
        cases hr
        rfl
      rw [hbt]
      exact le_of_not_lt htc

theorem mem_from_google_rss_time (cutoff : Int) (raws : List RawNewsItem) (b : NewsItem)
    (hb : b ∈ from_google_rss cutoff raws) : cutoff ≤ b.time := by
  unfold from_google_rss at hb
  rw [List.mem_filterMap] at hb
  obtain ⟨r, _, hr⟩ := hb
  cases hpt : r.pubTime with
  | none => rw [hpt] at hr; exact absurd hr (by simp)
  | some t =>
    rw [hpt] at hr
    dsimp only at hr
    by_cases htc : t < cutoff
    · rw [if_pos htc] at hr
      exact absurd hr (by simp)
    · rw [if_neg htc] at hr
      have hbt : b.time = t := by
        cases hr
        rfl
      rw [hbt]
      exact le_of_not_lt htc

theorem mem_fetch_news_source (env : NewsEnv) (sym : String) (limit : Int)
    (it : TranslatedNewsItem) (hm : it ∈ fetch_news env sym limit) :
    ∃ b : NewsItem, (b ∈ primary_items env ∨ b ∈ rss_items env) ∧
      translate_item env.translator b = it := by
  unfold fetch_news at hm
  by_cases hsym : pyUpper (pyStrip sym) = ""
  · rw [if_pos hsym] at hm
    exact absurd hm (by simp)
  · rw [if_neg hsym] at hm
    rw [List.mem_map] at hm
    obtain ⟨b, hb, hbe⟩ := hm
    refine ⟨b, ?_, hbe⟩
    have hb2 := pyTruncate_subset _ limit hb
    by_cases hp : primary_items env = []
    · rw [if_pos hp] at hb2
      exact Or.inr hb2
    · rw [if_neg hp] at hb2
      exact Or.inl hb2

/-! ### Claim theorems -/

/-- C9: the HTML-stripping helper applied to the raw fragment
`<p>Hello <b>world</b></p>` yields exactly `Hello world`: tags removed,
entities decoded, whitespace collapsed, result trimmed. -/
theorem C9_strip_html_example : strip_html "<p>Hello <b>world</b></p>" = "Hello world" := by
  rfl

/-- C8: the market-session check is a pure function of the (New-York local)
instant: a weekend weekday index reports closed regardless of hour; on a
weekday the flag is true exactly when the local time lies in the half-open
window from 09:30 to 16:00; a Tuesday 10:00 instant reports open; every
Saturday instant reports closed. -/
theorem C8_market_session (t : EasternTime) (hwd : t.weekday < 7)
    (hh : t.hour < 24) (hm : t.minute < 60) :
    (5 ≤ t.weekday → (is_us_market_open t).1 = false)
    ∧ (t.weekday < 5 →
        ((is_us_market_open t).1 = true ↔
          (570 ≤ t.hour * 60 + t.minute ∧ t.hour * 60 + t.minute < 960)))
    ∧ (is_us_market_open ⟨1, 10, 0⟩).1 = true
    ∧ (t.weekday = 5 → (is_us_market_open t).1 = false) := by
  refine ⟨?_, ?_, by decide, ?_⟩
  · intro h5
    unfold is_us_market_open
    rw [if_pos h5]
  · intro h5
    unfold is_us_market_open
    rw [if_neg (by omega)]
    constructor
    · intro hopen
      by_cases hc : (9 < t.hour ∨ (t.hour = 9 ∧ 30 ≤ t.minute)) ∧ t.hour < 16
      · rcases hc with ⟨hc1, hc2⟩
        rcases hc1 with hgt | ⟨he, hge⟩ <;> omega
      · rw [if_neg hc] at hopen
        exact absurd hopen (by simp)
    · intro ⟨hlo, hhi⟩
      rw [if_pos (by omega)]
  · intro h5
    unfold is_us_market_open
    rw [if_pos (by omega)]

/-- C8 witness: the theorem instantiated at concrete instants — Tuesday
10:00 New York time is reported open, Saturday noon is reported closed. -/
theorem C8_market_session_witness :
    ((is_us_market_open ⟨1, 10, 0⟩).1 = true ↔
      (570 ≤ 10 * 60 + 0 ∧ 10 * 60 + 0 < 960))
    ∧ (is_us_market_open ⟨5, 12, 30⟩).1 = false :=
  ⟨(C8_market_session ⟨1, 10, 0⟩ (by decide) (by decide) (by decide)).2.1 (by decide),
   (C8_market_session ⟨5, 12, 30⟩ (by decide) (by decide) (by decide)).1 (by decide)⟩

/-- C10: a symbol that is empty after trimming makes `fetch_news` return
the empty list, for every environment (so no provider data is consulted)
and every limit, without raising. -/
theorem C10_empty_symbol_news (env : NewsEnv) (sym : String) (limit : Int)
    (h : pyStrip sym = "") : fetch_news env sym limit = [] := by
  unfold fetch_news
  rw [if_pos ((pyUpper_empty_iff _).mpr h)]

/-- C10 witness: a whitespace-only symbol yields the empty list even when
both providers have fresh items available. -/
theorem C10_empty_symbol_news_witness :
    fetch_news
      { now := 1000000000
        primary := Except.ok [⟨some 999999999, "T", "l", "P", "s"⟩]
        rss := Except.ok [⟨some 999999999, "T", "l", "P", "s"⟩]
        translator := none } "  " 8 = [] :=
  C10_empty_symbol_news _ "  " 8 (by decide)

/-- C6: `fetch_stock_quote` rejects a symbol that trims to empty with the
empty-symbol validation error for every environment (hence before any
network data is consulted); any successful quote carries the trimmed,
upper-cased symbol; and the normalisation maps the spec's example input to
its expected form. -/
theorem C6_symbol_validation :
    (∀ (env : QuoteEnv) (sym : String), pyStrip sym = "" →
      fetch_stock_quote env sym = Except.error "股票代码不能为空")
    ∧ (∀ (env : QuoteEnv) (sym : String) (q : StockQuote),
        fetch_stock_quote env sym = Except.ok q → q.symbol = pyUpper (pyStrip sym))
    ∧ pyUpper (pyStrip " aapl ") = "AAPL" := by
  refine ⟨?_, ?_, by decide⟩
  · intro env sym h
    unfold fetch_stock_quote
    rw [if_pos ((pyUpper_empty_iff _).mpr h)]
  · intro env sym q hq
    unfold fetch_stock_quote at hq
    by_cases hsym : pyUpper (pyStrip sym) = ""
    · rw [if_pos hsym] at hq
      exact absurd hq (by simp)
    · rw [if_neg hsym] at hq
      dsimp only at hq
      split at hq
      · split at hq
        · exact absurd hq (by simp)
        · cases hq
          rfl
      · exact absurd hq (by simp)

/-- C6 witness: the theorem instantiated at a whitespace-only symbol (error
raised with providers fully stocked) and at the spec's example symbol. -/
theorem C6_symbol_validation_witness :
    fetch_stock_quote ⟨[some 148, some 150], some 150, 0, ⟨1, 10, 0⟩⟩ "   " =
      Except.error "股票代码不能为空"
    ∧ (StockQuote.symbol
        { symbol := "AAPL", last_price := 150, prev_close := 148, change := 150 - 148,
          change_pct := (150 - 148) / 148, as_of := 0, is_market_open := true })
        = pyUpper (pyStrip " aapl ") :=
  ⟨C6_symbol_validation.1 ⟨[some 148, some 150], some 150, 0, ⟨1, 10, 0⟩⟩ "   " (by decide),
   C6_symbol_validation.2.1 ⟨[some 148, some 150], none, 0, ⟨1, 10, 0⟩⟩ " aapl " _ rfl⟩

/-- C3: whenever the two-day history provides at least two valid closes with
the second-to-last one non-zero, `fetch_stock_quote` succeeds and returns
exactly change = last − prev and change_pct = change / prev, with prev and
last taken from the last two closes. -/
theorem C3_change_formula (env : QuoteEnv) (sym : String) (init : List ℚ) (p a : ℚ)
    (hc : env.hist2d.filterMap id = init ++ [p, a])
    (hp : p ≠ 0) (hs : pyUpper (pyStrip sym) ≠ "") :
    fetch_stock_quote env sym =
      Except.ok
        { symbol := pyUpper (pyStrip sym)
          last_price := a
          prev_close := p
          change := a - p
          change_pct := (a - p) / p
          as_of := env.now
          is_market_open := (is_us_market_open env.est_now).1 } := by
  unfold fetch_stock_quote
  rw [if_neg hs]
  dsimp only
  rw [hc]
  have hrev : (init ++ [p, a]).reverse = a :: p :: init.reverse := by
    simp
  rw [hrev]
  dsimp only
  rw [if_neg hp]

/-- C3 witness: the theorem instantiated at a concrete two-close history. -/
theorem C3_change_formula_witness :
    fetch_stock_quote ⟨[some 148, some 150], none, 0, ⟨1, 10, 0⟩⟩ "AAPL" =
      Except.ok
        { symbol := pyUpper (pyStrip "AAPL")
          last_price := 150
          prev_close := 148
          change := 150 - 148
          change_pct := (150 - 148) / 148
          as_of := 0
          is_market_open := (is_us_market_open ⟨1, 10, 0⟩).1 } :=
  C3_change_formula ⟨[some 148, some 150], none, 0, ⟨1, 10, 0⟩⟩ "AAPL" [] 148 150
    (by decide) (by norm_num) (by decide)

/-- C1 counterexample: with exactly one valid close in the two-day history
(and a live price available), `fetch_stock_quote` raises the no-valid-price
error instead of returning a zero-change quote. -/
theorem C1_single_close_cex :
    fetch_stock_quote ⟨[some 100], some 100, 0, ⟨1, 10, 0⟩⟩ "AAPL" =
      Except.error "无法获取该股票的有效价格数据" := rfl

/-- C1 (amended): when the two-day close history yields exactly one valid
close, `fetch_stock_quote` never defaults the previous close — it raises the
no-valid-price error, whatever live price is available. -/
theorem C1_single_close_raises (env : QuoteEnv) (sym : String) (a : ℚ)
    (hc : env.hist2d.filterMap id = [a]) (hs : pyUpper (pyStrip sym) ≠ "") :
    fetch_stock_quote env sym = Except.error "无法获取该股票的有效价格数据" := by
  unfold fetch_stock_quote
  rw [if_neg hs]
  dsimp only
  rw [hc]
  rfl

/-- C1 witness: the amended theorem instantiated at a one-close history. -/
theorem C1_single_close_raises_witness :
    fetch_stock_quote ⟨[some 100, none], some 101, 0, ⟨1, 10, 0⟩⟩ "TSLA" =
      Except.error "无法获取该股票的有效价格数据" :=
  C1_single_close_raises ⟨[some 100, none], some 101, 0, ⟨1, 10, 0⟩⟩ "TSLA" 100
    (by decide) (by decide)

/-- C4: every item returned by `fetch_news` was published inside the
trailing 7-day window, on the primary path and on the RSS fallback alike
(items with unparsable timestamps never reach the output). -/
theorem C4_seven_day_window (env : NewsEnv) (sym : String) (limit : Int)
    (it : TranslatedNewsItem) (hm : it ∈ fetch_news env sym limit) :
    env.now - 604800 ≤ it.time := by
  obtain ⟨b, hsrc, hbe⟩ := mem_fetch_news_source env sym limit it hm
  have htime : it.time = b.time := by
    rw [← hbe, translate_item_toNewsItem]
  rw [htime]
  cases hsrc with
  | inl hp =>
    unfold primary_items at hp
    cases henv : env.primary with
    | ok raws =>
      rw [henv] at hp
      exact mem_from_yfinance_time _ _ _ hp
    | error e =>
      rw [henv] at hp
      exact absurd hp (by simp)
  | inr hr =>
    unfold rss_items at hr
    cases henv : env.rss with
    | ok raws =>
      rw [henv] at hr
      exact mem_from_google_rss_time _ _ _ hr
    | error e =>
      rw [henv] at hr
      exact absurd hr (by simp)

/-- C4 witness: the theorem instantiated at a concrete fetch. -/
theorem C4_seven_day_window_witness :
    newsEnvC4.now - 604800 ≤
      (TranslatedNewsItem.mk ⟨"T", "l", "P", 999999999, ""⟩ "T（翻译暂不可用）" "").time :=
  C4_seven_day_window newsEnvC4 "AAPL" 8
    ⟨⟨"T", "l", "P", 999999999, ""⟩, "T（翻译暂不可用）", ""⟩ (by decide)

theorem pyTruncate_length_le {α : Type} (l : List α) (limit : Int) (h : 0 ≤ limit) :
    ((pyTruncate l limit).length : Int) ≤ limit := by
  unfold pyTruncate
  rw [if_pos h]
  by_cases hlen : limit < (l.length : Int)
  · rw [if_pos hlen, List.length_take]
    have h1 : min limit.toNat l.length ≤ limit.toNat := Nat.min_le_left _ _
    omega
  · rw [if_neg hlen]
    omega

/-- C5 counterexample: with a negative requested limit the returned list is
longer than the limit (Python slice semantics make `items[:limit]` keep a
non-negative number of items), so the claim fails as universally stated. -/
theorem C5_negative_limit_cex :
    ¬ (((fetch_news ⟨0, Except.ok [], Except.ok [], none⟩ "AAPL" (-1)).length : Int) ≤ -1) := by
  decide

/-- C5 (amended): for every non-negative requested limit, the list returned
by `fetch_news` has length at most the limit. -/
theorem C5_limit_respected (env : NewsEnv) (sym : String) (limit : Int)
    (h : 0 ≤ limit) : ((fetch_news env sym limit).length : Int) ≤ limit := by
  unfold fetch_news
  by_cases hsym : pyUpper (pyStrip sym) = ""
  · rw [if_pos hsym]
    simpa using h
  · rw [if_neg hsym]
    dsimp only
    rw [List.length_map]
    exact pyTruncate_length_le _ limit h

/-- C5 witness: the amended theorem instantiated at a concrete fetch whose
provider offers more items than the limit. -/
theorem C5_limit_respected_witness :
    ((fetch_news newsEnvC5 "AAPL" 2).length : Int) ≤ 2 :=
  C5_limit_respected newsEnvC5 "AAPL" 2 (by decide)

/-- C7: when the primary path produces at least one (in-window) item, the
result of `fetch_news` does not depend on the RSS fallback data at all — the
fallback is consulted only when the primary path produced nothing. -/
theorem C7_primary_nonempty_no_fallback (env : NewsEnv)
    (r₁ r₂ : Except Unit (List RawNewsItem)) (sym : String) (limit : Int)
    (h : primary_items env ≠ []) :
    fetch_news { env with rss := r₁ } sym limit =
      fetch_news { env with rss := r₂ } sym limit := by
  unfold fetch_news
  have hp : ∀ r, primary_items { env with rss := r } = primary_items env := fun _ => rfl
  by_cases hsym : pyUpper (pyStrip sym) = ""
  · rw [if_pos hsym, if_pos hsym]
  · rw [if_neg hsym, if_neg hsym]
    dsimp only
    rw [hp r₁, hp r₂, if_neg h, if_neg h]

/-- C7 witness: with a non-empty primary result, swapping the RSS data for a
failing RSS call does not change the output. -/
theorem C7_primary_nonempty_no_fallback_witness :
    fetch_news { newsEnvC7 with rss := Except.ok [⟨some 999999999, "Other", "l2", "Q", ""⟩] } "AAPL" 8 =
      fetch_news { newsEnvC7 with rss := Except.error () } "AAPL" 8 :=
  C7_primary_nonempty_no_fallback newsEnvC7
    (Except.ok [⟨some 999999999, "Other", "l2", "Q", ""⟩]) (Except.error ()) "AAPL" 8
    (by decide)

theorem translate_text_fail (f : String → Except Unit String)
    (hf : ∀ s, f s = Except.error ()) (text : String) :
    translate_text (some f) text = (pyStrip text, false) := by
  unfold translate_text
  dsimp only
  split
  · rfl
  · rw [hf (pyStrip text)]

theorem translate_item_fail (f : String → Except Unit String)
    (hf : ∀ s, f s = Except.error ()) (b : NewsItem) :
    (translate_item (some f) b).title_zh =
      if b.title = "" ∧ b.summary = "" then b.title
      else b.title ++ "（翻译暂不可用）" := by
  have hsuf : b.title ++ "（翻译暂不可用）" ≠ "" :=
    string_append_ne_empty b.title _ (by decide)
  unfold translate_item
  dsimp only
  rw [translate_text_fail f hf b.title]
  by_cases ht : b.title = "" <;> by_cases hs : b.summary = ""
  · have hcond : b.title = "" ∧ b.summary = "" := ⟨ht, hs⟩
    rw [if_pos hcond, if_pos hs]
    dsimp only
    split
    · next hc =>
      exact absurd hc (by simp [ht, hs])
    · dsimp only
      rw [ht]
      rfl
  · have hcond : ¬(b.title = "" ∧ b.summary = "") := by simp [hs]
    rw [if_neg hcond, if_neg hs, translate_text_fail f hf b.summary]
    dsimp only
    split
    · dsimp only
      unfold pyOr
      rw [if_neg hsuf]
    · next hc =>
      exact absurd ⟨rfl, rfl, Or.inr hs⟩ hc
  · have hcond : ¬(b.title = "" ∧ b.summary = "") := by simp [ht]
    rw [if_neg hcond, if_pos hs]
    dsimp only
    split
    · dsimp only
      unfold pyOr
      rw [if_neg hsuf]
    · next hc =>
      exact absurd ⟨rfl, rfl, Or.inl ht⟩ hc
  · have hcond : ¬(b.title = "" ∧ b.summary = "") := by simp [ht]
    rw [if_neg hcond, if_neg hs, translate_text_fail f hf b.summary]
    dsimp only
    split
    · dsimp only
      unfold pyOr
      rw [if_neg hsuf]
    · next hc =>
      exact absurd ⟨rfl, rfl, Or.inl ht⟩ hc

/-- C2 counterexample: when every translation call raises, the displayed
title is not the original title — the code appends a visible marker. -/
theorem C2_translation_cex :
    fetch_news newsEnvC2 "AAPL" 8 = [itemC2] ∧ itemC2.title_zh ≠ itemC2.title := by
  refine ⟨by decide, by decide⟩

/-- C2 (amended): if the translation provider raises on every call,
`fetch_news` still completes and every returned item's displayed title is
its original title with the visible translation-unavailable marker appended
(items with no text at all keep their empty title). -/
theorem C2_failed_translation_marks_title (env : NewsEnv)
    (f : String → Except Unit String)
    (htr : env.translator = some f) (hf : ∀ s, f s = Except.error ())
    (sym : String) (limit : Int) (it : TranslatedNewsItem)
    (hm : it ∈ fetch_news env sym limit) :
    it.title_zh =
      if it.title = "" ∧ it.summary = "" then it.title
      else it.title ++ "（翻译暂不可用）" := by
  obtain ⟨b, _, hbe⟩ := mem_fetch_news_source env sym limit it hm
  subst hbe
  rw [translate_item_toNewsItem]
  rw [htr]
  exact translate_item_fail f hf b

/-- C2 witness: the amended theorem instantiated at the concrete
environment whose translator always raises. -/
theorem C2_failed_translation_marks_title_witness :
    itemC2.title_zh =
      if itemC2.title = "" ∧ itemC2.summary = "" then itemC2.title
      else itemC2.title ++ "（翻译暂不可用）" :=
  C2_failed_translation_marks_title newsEnvC2 (fun _ => Except.error ()) rfl
    (fun _ => rfl) "AAPL" 8 itemC2 (by decide)

end App
